import Mathlib

/-!
# Smart parking controller (`src/main.cpp`)

A shallow embedding of the Arduino sketch: the global variables and the
output pins form a `Machine`, every hardware or serial call appends an
`Effect` to the trace of the current run, and `setup` / `loop` are the two
entry points of the sketch, written statement by statement.

The two inputs of a `loop()` cycle come from the outside world:
* the pulse width returned by `pulseIn(echoPin, HIGH)` (microseconds, `0` on
  timeout), and
* the byte waiting on the serial line, if any (`Serial.available()` /
  `Serial.read()`).
-/

namespace SmartParking

/-- Logic level of a digital pin. -/
inductive Level where
  | LOW
  | HIGH
deriving DecidableEq

/-- One observable action of the sketch on its hardware or serial port. -/
inductive Effect where
  | pinMode (pin : Int) (output : Bool)
  | servoAttach (pin : Int)
  | serialBegin (baud : Nat)
  | digitalWrite (pin : Int) (level : Level)
  | analogWrite (pin : Int) (value : Int)
  | servoWrite (angle : Int)
  | delayMicroseconds (us : Nat)
  | delay (ms : Nat)
  | print (text : String)
  | println (text : String)
deriving DecidableEq

/-! ## Globals (lines 3-23) -/

def trigPin : Int := 7
def echoPin : Int := 6
def red : Int := 11
def blue : Int := 10
def green : Int := 9
def servoPin : Int := 3
def buzzerPin : Int := 12
def parkingThreshold : Int := 15

/-- The mutable globals of the sketch together with the levels last driven on
its outputs (the servo position, the three PWM channels of the RGB LED, the
trigger pin and the buzzer pin). -/
structure Machine where
  duration : Int
  distance : Int
  spotOccupied : Bool
  servoAngle : Int
  pwmRed : Int
  pwmGreen : Int
  pwmBlue : Int
  trigLevel : Level
  buzzerLevel : Level
deriving DecidableEq

/-- A machine together with the effects emitted so far, oldest first. -/
structure Run where
  machine : Machine
  effects : List Effect
deriving DecidableEq

/-- The colour currently driven on the RGB LED, as (red, green, blue). -/
def Machine.indicator (m : Machine) : Int × Int × Int :=
  (m.pwmRed, m.pwmGreen, m.pwmBlue)

/-! ## Hardware abstraction layer -/

def emit (e : Effect) (r : Run) : Run :=
  { r with effects := r.effects ++ [e] }

def pinMode (pin : Int) (output : Bool) (r : Run) : Run :=
  emit (Effect.pinMode pin output) r

def digitalWrite (pin : Int) (level : Level) (r : Run) : Run :=
  let m := r.machine
  let m :=
    if pin = trigPin then { m with trigLevel := level }
    else if pin = buzzerPin then { m with buzzerLevel := level }
    else m
  emit (Effect.digitalWrite pin level) { r with machine := m }

def analogWrite (pin : Int) (value : Int) (r : Run) : Run :=
  let m := r.machine
  let m :=
    if pin = red then { m with pwmRed := value }
    else if pin = green then { m with pwmGreen := value }
    else if pin = blue then { m with pwmBlue := value }
    else m
  emit (Effect.analogWrite pin value) { r with machine := m }

def servoWrite (angle : Int) (r : Run) : Run :=
  emit (Effect.servoWrite angle) { r with machine := { r.machine with servoAngle := angle } }

def delayMicroseconds (us : Nat) (r : Run) : Run :=
  emit (Effect.delayMicroseconds us) r

def delay (ms : Nat) (r : Run) : Run :=
  emit (Effect.delay ms) r

def serialPrint (text : String) (r : Run) : Run :=
  emit (Effect.print text) r

def serialPrintln (text : String) (r : Run) : Run :=
  emit (Effect.println text) r

/-- Modelled from the spec: the Arduino core macro `constrain(amt, low, high)` is not part
of the sketch; it clamps `amt` to `[low, high]`, returning `low` below the range, `high`
above it and `amt` itself inside it. -/
def constrain (x lo hi : Int) : Int :=
  if x < lo then lo else if x > hi then hi else x

/-! ## `setRGB` (lines 155-163) -/

def setRGB (redValue greenValue blueValue : Int) (r : Run) : Run :=
  let redValue := constrain redValue 0 255
  let greenValue := constrain greenValue 0 255
  let blueValue := constrain blueValue 0 255
  let r := analogWrite red redValue r
  let r := analogWrite green greenValue r
  analogWrite blue blueValue r

/-! ## `setup` (lines 25-48) -/

/-- State at power-on: zero-initialised globals (`spotOccupied = false`), all
outputs low. -/
def powerOn : Machine :=
  { duration := 0, distance := 0, spotOccupied := false, servoAngle := 0,
    pwmRed := 0, pwmGreen := 0, pwmBlue := 0,
    trigLevel := Level.LOW, buzzerLevel := Level.LOW }

def setup (m : Machine) : Run :=
  let r : Run := { machine := m, effects := [] }
  let r := pinMode trigPin true r
  let r := pinMode echoPin false r
  let r := pinMode red true r
  let r := pinMode blue true r
  let r := pinMode green true r
  let r := pinMode buzzerPin true r
  let r := emit (Effect.servoAttach servoPin) r
  let r := servoWrite 0 r
  let r := emit (Effect.serialBegin 9600) r
  let r := setRGB 0 255 0 r
  let r := serialPrintln "Smart Parking System Initialized" r
  let r := serialPrint "Parking threshold set to: " r
  let r := serialPrint (toString parkingThreshold) r
  serialPrintln " cm" r

/-- The state in which the first `loop()` cycle starts. -/
def initial : Machine := (setup powerOn).machine

/-! ## `loop` (lines 50-152) -/

/-- Line 59, `distance = duration * 0.034 / 2`, with the product taken in exact
arithmetic (`duration * 17 / 1000`) and the conversion to `int` truncating
toward zero. The sketch computes the product in floating point: `readingOf`
below models that rounding, and `distanceOf_agrees` shows that for every pulse
width `pulseIn` returns within its one-second timeout both fall in the same band
of the status check (and are equal in binary64). For those pulse widths the
result fits the 16-bit `int`. -/
def distanceOf (duration : Int) : Int :=
  Int.tdiv (duration * 17) 1000

/-! ### Line 59 in floating point

`duration * 0.034 / 2` converts `duration` to `double`, multiplies by the literal
`0.034` (itself rounded to `double`), divides by 2 and truncates to `int`. The
width of `double` depends on the board: IEEE binary32 on AVR, binary64
elsewhere. Values are kept as natural numbers scaled by a power of two. -/

/-- The two widths `double` can have on an Arduino board. -/
inductive FloatFormat where
  | binary32
  | binary64
deriving DecidableEq

/-- Number of bits of the significand, the implicit leading bit included. -/
def FloatFormat.precision : FloatFormat → Nat
  | FloatFormat.binary32 => 24
  | FloatFormat.binary64 => 53

def bitLengthAux : Nat → Nat → Nat
  | 0, _ => 0
  | fuel + 1, n => if n = 0 then 0 else bitLengthAux fuel (n / 2) + 1

/-- Number of binary digits of `n` (0 for 0). -/
def bitLength (n : Nat) : Nat :=
  bitLengthAux n n

/-- The quotient `a / b` rounded to the nearest integer, ties to even. -/
def divRoundEven (a b : Nat) : Nat :=
  if 2 * (a % b) < b then a / b
  else if b < 2 * (a % b) then a / b + 1
  else a / b + (a / b) % 2

/-- Round-to-nearest, ties-to-even, of `n` to `p` significant bits: the bits below
the `p` leading ones are rounded away. -/
def roundNearestEven (p n : Nat) : Nat :=
  divRoundEven n (2 ^ (bitLength n - p)) * 2 ^ (bitLength n - p)

/-- The literal `0.034` as a `p`-bit significand: `0.034` lies in `[2^-5, 2^-4)`, so the
stored value is `coefficient p / 2 ^ (p + 4)`. -/
def coefficient (p : Nat) : Nat :=
  divRoundEven (34 * 2 ^ (p + 4)) 1000

/-- Line 59 with the rounding of the given format: the pulse width converts exactly
(it is below `2 ^ 24`), the product with the rounded literal is rounded to nearest,
the division by 2 is exact, and the conversion to `int` drops the fraction. -/
def readingOf (fmt : FloatFormat) (duration : Nat) : Int :=
  ((roundNearestEven fmt.precision (duration * coefficient fmt.precision)
      / 2 ^ (fmt.precision + 4 + 1) : Nat) : Int)

/-- Lines 51-59: trigger pulse, echo measurement, conversion. `pulse` is the
value returned by `pulseIn(echoPin, HIGH)`. -/
def measure (pulse : Nat) (r : Run) : Run :=
  let r := digitalWrite trigPin Level.LOW r
  let r := delayMicroseconds 2 r
  let r := digitalWrite trigPin Level.HIGH r
  let r := delayMicroseconds 10 r
  let r := digitalWrite trigPin Level.LOW r
  let r := { r with machine := { r.machine with duration := (pulse : Int) } }
  { r with machine := { r.machine with distance := distanceOf r.machine.duration } }

/-- Body of the `for` loop at lines 75-80. -/
def beep (r : Run) : Run :=
  let r := digitalWrite buzzerPin Level.HIGH r
  let r := delay 200 r
  let r := digitalWrite buzzerPin Level.LOW r
  delay 200 r

/-- Lines 61-104: distance report and parking status check. -/
def checkParkingStatus (r : Run) : Run :=
  let r := serialPrint "Distance: " r
  let r := serialPrint (toString r.machine.distance) r
  let r := serialPrintln " cm" r
  if r.machine.distance < parkingThreshold then
    if !r.machine.spotOccupied then
      let r := { r with machine := { r.machine with spotOccupied := true } }
      let r := serialPrintln "OCCUPIED" r
      let r := setRGB 255 0 0 r
      Nat.repeat beep 2 r
    else
      serialPrintln "OCCUPIED" r
  else if r.machine.distance ≥ parkingThreshold ∧ r.machine.distance < 100 then
    if r.machine.spotOccupied then
      let r := { r with machine := { r.machine with spotOccupied := false } }
      let r := serialPrintln "AVAILABLE" r
      let r := setRGB 0 255 0 r
      let r := digitalWrite buzzerPin Level.HIGH r
      let r := delay 500 r
      digitalWrite buzzerPin Level.LOW r
    else
      serialPrintln "AVAILABLE" r
  else
    let r := serialPrintln "NO READING" r
    setRGB 0 0 255 r

/-- Lines 111-148: the `switch` on the byte read from the serial port. -/
def dispatch (command : Char) (r : Run) : Run :=
  if command = 'o' then
    let r := servoWrite 90 r
    let r := serialPrintln "Gate OPENED" r
    let r := setRGB 255 255 0 r
    delay 1000 r
  else if command = 'c' then
    let r := servoWrite 0 r
    let r := serialPrintln "Gate CLOSED" r
    let r := if r.machine.spotOccupied then setRGB 255 0 0 r else setRGB 0 255 0 r
    delay 1000 r
  else if command = 's' then
    if r.machine.spotOccupied then
      serialPrintln "STATUS:OCCUPIED" r
    else
      serialPrintln "STATUS:AVAILABLE" r
  else if command = 'r' then
    let r := { r with machine := { r.machine with spotOccupied := false } }
    let r := servoWrite 0 r
    let r := setRGB 0 255 0 r
    serialPrintln "SYSTEM RESET" r
  else
    serialPrintln "INVALID COMMAND" r

/-- Lines 106-149: `pending` is the byte `Serial.read()` would return, or
`none` when `Serial.available()` is zero. -/
def checkCommand (pending : Option Char) (r : Run) : Run :=
  match pending with
  | some command => dispatch command r
  | none => r

/-- One `loop()` cycle started in machine state `m`; the returned run holds
the state at the end of the cycle and the effects of this cycle only. -/
def loop (m : Machine) (pulse : Nat) (pending : Option Char) : Run :=
  let r : Run := { machine := m, effects := [] }
  let r := measure pulse r
  let r := checkParkingStatus r
  let r := checkCommand pending r
  delay 500 r

/-- The cycle up to and including the parking status check (lines 51-104). -/
def classification (m : Machine) (pulse : Nat) : Run :=
  checkParkingStatus (measure pulse { machine := m, effects := [] })

/-! ## Runs of several cycles -/

/-- What the outside world feeds one `loop()` cycle: the echo pulse width and the
byte waiting on the serial line, if any. -/
structure Input where
  pulse : Nat
  pending : Option Char
deriving DecidableEq

/-- The machine state one cycle later. -/
def step (m : Machine) (i : Input) : Machine :=
  (loop m i.pulse i.pending).machine

/-- The machine state after a sequence of cycles. -/
def run (m : Machine) (inputs : List Input) : Machine :=
  inputs.foldl step m

/-- The runs of the successive cycles, each started in the state the previous one left. -/
def cycles (m : Machine) : List Input → List Run
  | [] => []
  | i :: rest => loop m i.pulse i.pending :: cycles (step m i) rest

/-! ## Observations on a trace -/

/-- Lines written on the serial port: `print` extends the current line,
`println` ends it. -/
def logLinesAux : List Effect → String → List String
  | [], cur => if cur = "" then [] else [cur]
  | Effect.print text :: es, cur => logLinesAux es (cur ++ text)
  | Effect.println text :: es, cur => (cur ++ text) :: logLinesAux es ""
  | _ :: es, cur => logLinesAux es cur

def logLines (es : List Effect) : List String :=
  logLinesAux es ""

def isBuzzerWrite : Effect → Bool
  | Effect.digitalWrite pin _ => decide (pin = buzzerPin)
  | _ => false

/-- The writes to the buzzer pin within a trace. -/
def buzzerWrites (es : List Effect) : List Effect :=
  es.filter isBuzzerWrite

/-- Whether the cycle sounded the buzzer. -/
def alerts (r : Run) : Bool :=
  !(buzzerWrites r.effects).isEmpty

def isLedWrite : Effect → Bool
  | Effect.analogWrite pin _ => decide (pin = red ∨ pin = green ∨ pin = blue)
  | _ => false

/-- The writes to the three LED channels within a trace. -/
def ledWrites (es : List Effect) : List Effect :=
  es.filter isLedWrite

/-- Milliseconds of `delay` from the start of a trace up to the next write to the
buzzer pin (or to the end of the trace). -/
def holdMs : List Effect → Nat
  | [] => 0
  | Effect.delay ms :: es => ms + holdMs es
  | Effect.digitalWrite pin _ :: es => if pin = buzzerPin then 0 else holdMs es
  | _ :: es => holdMs es

/-- The waveform on the buzzer pin: every level written to it, with the time in
milliseconds it is held before the next write (or the end of the trace). -/
def buzzerWave : List Effect → List (Level × Nat)
  | [] => []
  | Effect.digitalWrite pin level :: es =>
      if pin = buzzerPin then (level, holdMs es) :: buzzerWave es else buzzerWave es
  | _ :: es => buzzerWave es

/-- The log lines of a cycle and whether it sounded the buzzer. -/
def observe (r : Run) : List String × Bool :=
  (logLines r.effects, alerts r)

/-- What the edge-triggered state machine of the specification predicts for a
sequence of in-band readings: per reading the distance line, the status line of its
band, and an alert exactly when the band differs from the previous one (`prev` is
the band before the first reading, `true` for occupied). -/
def expectedOutputs (prev : Bool) : List Int → List (List String × Bool)
  | [] => []
  | d :: ds =>
      (["Distance: " ++ toString d ++ " cm",
        if d < parkingThreshold then "OCCUPIED" else "AVAILABLE"],
       decide (d < parkingThreshold) != prev)
        :: expectedOutputs (decide (d < parkingThreshold)) ds

/-! ## Closed forms of the stages of `loop`

Each is proved equal to the stage it describes before it is used. -/

/-- The trace of the trigger pulse (lines 52-56). -/
def triggerPulse : List Effect :=
  [Effect.digitalWrite trigPin Level.LOW, Effect.delayMicroseconds 2,
   Effect.digitalWrite trigPin Level.HIGH, Effect.delayMicroseconds 10,
   Effect.digitalWrite trigPin Level.LOW]

/-- The machine as `measure` leaves it. -/
def measured (m : Machine) (pulse : Nat) : Machine :=
  { m with duration := (pulse : Int), distance := distanceOf (pulse : Int),
           trigLevel := Level.LOW }

/-- The three fragments of the distance report (lines 62-64). -/
def distanceReport (d : Int) : List Effect :=
  [Effect.print "Distance: ", Effect.print (toString d), Effect.println " cm"]

/-- The trace of the double beep (lines 75-80). -/
def occupiedAlert : List Effect :=
  [Effect.digitalWrite buzzerPin Level.HIGH, Effect.delay 200,
   Effect.digitalWrite buzzerPin Level.LOW, Effect.delay 200,
   Effect.digitalWrite buzzerPin Level.HIGH, Effect.delay 200,
   Effect.digitalWrite buzzerPin Level.LOW, Effect.delay 200]

/-- The trace of the single long beep (lines 93-95). -/
def availableAlert : List Effect :=
  [Effect.digitalWrite buzzerPin Level.HIGH, Effect.delay 500,
   Effect.digitalWrite buzzerPin Level.LOW]

/-- The three PWM writes of `setRGB` for in-range channel values. -/
def paint (r g b : Int) : List Effect :=
  [Effect.analogWrite red r, Effect.analogWrite green g, Effect.analogWrite blue b]

/-- The machine as `checkParkingStatus` leaves it. -/
def afterCheck (m : Machine) : Machine :=
  if m.distance < parkingThreshold then
    if m.spotOccupied then m
    else { m with spotOccupied := true, pwmRed := 255, pwmGreen := 0, pwmBlue := 0,
                  buzzerLevel := Level.LOW }
  else if m.distance < 100 then
    if m.spotOccupied then
      { m with spotOccupied := false, pwmRed := 0, pwmGreen := 255, pwmBlue := 0,
               buzzerLevel := Level.LOW }
    else m
  else { m with pwmRed := 0, pwmGreen := 0, pwmBlue := 255 }

/-- The trace `checkParkingStatus` emits. -/
def checkTrace (m : Machine) : List Effect :=
  distanceReport m.distance ++
    (if m.distance < parkingThreshold then
      if m.spotOccupied then [Effect.println "OCCUPIED"]
      else Effect.println "OCCUPIED" :: (paint 255 0 0 ++ occupiedAlert)
    else if m.distance < 100 then
      if m.spotOccupied then Effect.println "AVAILABLE" :: (paint 0 255 0 ++ availableAlert)
      else [Effect.println "AVAILABLE"]
    else Effect.println "NO READING" :: paint 0 0 255)

/-- The machine as `dispatch` leaves it. -/
def afterDispatch (c : Char) (m : Machine) : Machine :=
  if c = 'o' then { m with servoAngle := 90, pwmRed := 255, pwmGreen := 255, pwmBlue := 0 }
  else if c = 'c' then
    { m with servoAngle := 0, pwmRed := if m.spotOccupied then 255 else 0,
             pwmGreen := if m.spotOccupied then 0 else 255, pwmBlue := 0 }
  else if c = 's' then m
  else if c = 'r' then
    { m with spotOccupied := false, servoAngle := 0, pwmRed := 0, pwmGreen := 255,
             pwmBlue := 0 }
  else m

/-- The trace `dispatch` emits. -/
def dispatchTrace (c : Char) (occupied : Bool) : List Effect :=
  if c = 'o' then
    Effect.servoWrite 90 :: Effect.println "Gate OPENED" :: (paint 255 255 0 ++ [Effect.delay 1000])
  else if c = 'c' then
    Effect.servoWrite 0 :: Effect.println "Gate CLOSED" ::
      ((if occupied then paint 255 0 0 else paint 0 255 0) ++ [Effect.delay 1000])
  else if c = 's' then
    [Effect.println (if occupied then "STATUS:OCCUPIED" else "STATUS:AVAILABLE")]
  else if c = 'r' then
    Effect.servoWrite 0 :: (paint 0 255 0 ++ [Effect.println "SYSTEM RESET"])
  else [Effect.println "INVALID COMMAND"]

/-- The machine as `checkCommand` leaves it. -/
def afterCommand (pending : Option Char) (m : Machine) : Machine :=
  match pending with
  | some c => afterDispatch c m
  | none => m

/-- The trace `checkCommand` emits. -/
def commandTrace (pending : Option Char) (occupied : Bool) : List Effect :=
  match pending with
  | some c => dispatchTrace c occupied
  | none => []

/-! ## The log protocol and the indicator invariant, as the specification words them -/

/-- The status line the specification assigns to a reading: `OCCUPIED` below the
threshold, `AVAILABLE` from the threshold up to 100, `NO READING` otherwise. -/
def statusLine (d : Int) : String :=
  if d < parkingThreshold then "OCCUPIED"
  else if d < 100 then "AVAILABLE"
  else "NO READING"

/-- The line the specification assigns to a consumed command byte; `occupied` is the
occupancy flag at the time the command is handled. -/
def commandLine (c : Char) (occupied : Bool) : String :=
  if c = 'o' then "Gate OPENED"
  else if c = 'c' then "Gate CLOSED"
  else if c = 's' then (if occupied then "STATUS:OCCUPIED" else "STATUS:AVAILABLE")
  else if c = 'r' then "SYSTEM RESET"
  else "INVALID COMMAND"

/-- The lines logged by command handling: none without a pending byte, one otherwise. -/
def commandLines (pending : Option Char) (occupied : Bool) : List String :=
  match pending with
  | some c => [commandLine c occupied]
  | none => []

/-- The indicator does not contradict the occupancy flag: red only when occupied, green
only when available. -/
def Consistent (m : Machine) : Prop :=
  (m.indicator = (255, 0, 0) → m.spotOccupied = true) ∧
    (m.indicator = (0, 255, 0) → m.spotOccupied = false)

/-! ## Stage lemmas -/

theorem repeat_beep_two (r : Run) : Nat.repeat beep 2 r = beep (beep r) := rfl

theorem measure_eq (pulse : Nat) (m : Machine) (es : List Effect) :
    measure pulse { machine := m, effects := es } =
      { machine := measured m pulse, effects := es ++ triggerPulse } := by
  simp [measure, measured, triggerPulse, digitalWrite, delayMicroseconds, emit, trigPin]

theorem checkParkingStatus_eq (m : Machine) (es : List Effect) :
    checkParkingStatus { machine := m, effects := es } =
      { machine := afterCheck m, effects := es ++ checkTrace m } := by
  by_cases hd : m.distance < parkingThreshold
  · cases ho : m.spotOccupied <;>
    simp [checkParkingStatus, afterCheck, checkTrace, hd, ho, repeat_beep_two, beep, setRGB,
      constrain, analogWrite, digitalWrite, delay, serialPrint, serialPrintln, emit,
      distanceReport, paint, occupiedAlert, red, green, blue, buzzerPin, trigPin]
  · have h1 : parkingThreshold ≤ m.distance := not_lt.mp hd
    by_cases h2 : m.distance < 100
    · cases ho : m.spotOccupied <;>
      simp [checkParkingStatus, afterCheck, checkTrace, hd, h1, h2, ho, setRGB,
        constrain, analogWrite, digitalWrite, delay, serialPrint, serialPrintln, emit,
        distanceReport, paint, availableAlert, red, green, blue, buzzerPin, trigPin]
    · simp [checkParkingStatus, afterCheck, checkTrace, hd, h2, setRGB, constrain, analogWrite,
        serialPrint, serialPrintln, emit, distanceReport, paint, red, green, blue]

theorem dispatch_eq (c : Char) (m : Machine) (es : List Effect) :
    dispatch c { machine := m, effects := es } =
      { machine := afterDispatch c m, effects := es ++ dispatchTrace c m.spotOccupied } := by
  by_cases ho : c = 'o'
  · simp [dispatch, afterDispatch, dispatchTrace, ho, servoWrite, setRGB, constrain,
      analogWrite, delay, serialPrintln, emit, paint, red, green, blue]
  by_cases hc : c = 'c'
  · cases hs : m.spotOccupied <;>
    simp [dispatch, afterDispatch, dispatchTrace, hc, hs, servoWrite, setRGB, constrain,
      analogWrite, delay, serialPrintln, emit, paint, red, green, blue]
  by_cases hs : c = 's'
  · cases hq : m.spotOccupied <;>
    simp [dispatch, afterDispatch, dispatchTrace, hs, hq, serialPrintln, emit]
  by_cases hr : c = 'r'
  · simp [dispatch, afterDispatch, dispatchTrace, hr, servoWrite, setRGB, constrain,
      analogWrite, serialPrintln, emit, paint, red, green, blue]
  simp [dispatch, afterDispatch, dispatchTrace, ho, hc, hs, hr, serialPrintln, emit]

theorem checkCommand_eq (pending : Option Char) (m : Machine) (es : List Effect) :
    checkCommand pending { machine := m, effects := es } =
      { machine := afterCommand pending m,
        effects := es ++ commandTrace pending m.spotOccupied } := by
  cases pending with
  | none => simp [checkCommand, afterCommand, commandTrace]
  | some c => simp [checkCommand, afterCommand, commandTrace, dispatch_eq]

theorem classification_eq (m : Machine) (pulse : Nat) :
    classification m pulse =
      { machine := afterCheck (measured m pulse),
        effects := triggerPulse ++ checkTrace (measured m pulse) } := by
  simp [classification, measure_eq, checkParkingStatus_eq]

theorem loop_eq (m : Machine) (pulse : Nat) (pending : Option Char) :
    loop m pulse pending =
      { machine := afterCommand pending (afterCheck (measured m pulse)),
        effects := triggerPulse ++ checkTrace (measured m pulse)
          ++ commandTrace pending (afterCheck (measured m pulse)).spotOccupied
          ++ [Effect.delay 500] } := by
  simp [loop, measure_eq, checkParkingStatus_eq, checkCommand_eq, delay, emit]

/-! ## Field-level summaries -/

theorem afterCheck_spotOccupied (m : Machine) :
    (afterCheck m).spotOccupied =
      if m.distance < parkingThreshold then true
      else if m.distance < 100 then false
      else m.spotOccupied := by
  unfold afterCheck
  cases ho : m.spotOccupied <;> split_ifs <;> simp_all

theorem afterCommand_spotOccupied (pending : Option Char) (m : Machine) :
    (afterCommand pending m).spotOccupied =
      if pending = some 'r' then false else m.spotOccupied := by
  cases pending with
  | none => simp [afterCommand]
  | some c =>
    simp only [afterCommand, afterDispatch, Option.some.injEq]
    split_ifs <;> simp_all

theorem measured_distance (m : Machine) (pulse : Nat) :
    (measured m pulse).distance = distanceOf (pulse : Int) := rfl

theorem measured_spotOccupied (m : Machine) (pulse : Nat) :
    (measured m pulse).spotOccupied = m.spotOccupied := rfl

theorem classification_spotOccupied (m : Machine) (pulse : Nat) :
    (classification m pulse).machine.spotOccupied =
      if distanceOf (pulse : Int) < parkingThreshold then true
      else if distanceOf (pulse : Int) < 100 then false
      else m.spotOccupied := by
  rw [classification_eq]
  simp [afterCheck_spotOccupied, measured_distance, measured_spotOccupied]

theorem loop_spotOccupied (m : Machine) (pulse : Nat) (pending : Option Char) :
    (loop m pulse pending).machine.spotOccupied =
      if pending = some 'r' then false
      else if distanceOf (pulse : Int) < parkingThreshold then true
      else if distanceOf (pulse : Int) < 100 then false
      else m.spotOccupied := by
  rw [loop_eq]
  simp [afterCommand_spotOccupied, afterCheck_spotOccupied, measured_distance,
    measured_spotOccupied]

theorem buzzerWrites_append (xs ys : List Effect) :
    buzzerWrites (xs ++ ys) = buzzerWrites xs ++ buzzerWrites ys := by
  simp [buzzerWrites]

theorem ledWrites_append (xs ys : List Effect) :
    ledWrites (xs ++ ys) = ledWrites xs ++ ledWrites ys := by
  simp [ledWrites]

theorem buzzerWrites_triggerPulse : buzzerWrites triggerPulse = [] := by decide

theorem buzzerWrites_commandTrace (pending : Option Char) (occupied : Bool) :
    buzzerWrites (commandTrace pending occupied) = [] := by
  cases pending with
  | none => rfl
  | some c =>
    simp only [commandTrace, dispatchTrace]
    cases occupied <;> split_ifs <;> rfl

theorem buzzerWrites_checkTrace (m : Machine) :
    buzzerWrites (checkTrace m) =
      if m.distance < parkingThreshold ∧ m.spotOccupied = false then buzzerWrites occupiedAlert
      else if parkingThreshold ≤ m.distance ∧ m.distance < 100 ∧ m.spotOccupied = true then
        buzzerWrites availableAlert
      else [] := by
  have hrep : ∀ d : Int, buzzerWrites (distanceReport d) = [] := fun d => rfl
  rw [checkTrace, buzzerWrites_append, hrep]
  by_cases hd : m.distance < parkingThreshold
  · cases ho : m.spotOccupied <;>
    simp [hd, ho, buzzerWrites, isBuzzerWrite, paint, occupiedAlert]
  · have h1 : parkingThreshold ≤ m.distance := not_lt.mp hd
    by_cases h2 : m.distance < 100
    · cases ho : m.spotOccupied <;>
      simp [hd, h1, h2, ho, buzzerWrites, isBuzzerWrite, paint, availableAlert]
    · simp [hd, h2, buzzerWrites, isBuzzerWrite, paint]

theorem buzzerWrites_loop (m : Machine) (pulse : Nat) (pending : Option Char) :
    buzzerWrites (loop m pulse pending).effects =
      buzzerWrites (checkTrace (measured m pulse)) := by
  rw [loop_eq]
  simp only [buzzerWrites_append, buzzerWrites_triggerPulse, buzzerWrites_commandTrace]
  simp [buzzerWrites, isBuzzerWrite]

theorem buzzerWrites_classification (m : Machine) (pulse : Nat) :
    buzzerWrites (classification m pulse).effects =
      buzzerWrites (checkTrace (measured m pulse)) := by
  rw [classification_eq]
  simp only [buzzerWrites_append, buzzerWrites_triggerPulse, List.nil_append]

theorem ledWrites_checkTrace_steady (m : Machine)
    (h : m.distance < 100) (hs : m.spotOccupied = decide (m.distance < parkingThreshold)) :
    ledWrites (checkTrace m) = [] := by
  have hrep : ∀ d : Int, ledWrites (distanceReport d) = [] := fun d => rfl
  rw [checkTrace, ledWrites_append, hrep]
  by_cases hd : m.distance < parkingThreshold
  · simp only [hd, decide_True] at hs
    simp [hd, hs, ledWrites, isLedWrite]
  · simp only [hd, decide_False] at hs
    simp [hd, h, hs, ledWrites, isLedWrite]

/-! ## Occupancy after one cycle (C1, C2, C3) -/

/-- C1, as stated, fails: from the state left by `setup`, a cycle that reads 8 cm (pulse
width 500 us) and consumes the command `r` ends AVAILABLE, not OCCUPIED. -/
theorem reset_overrides_occupied_reading :
    distanceOf 500 = 8 ∧ (8 : Int) < parkingThreshold ∧
      (loop initial 500 (some 'r')).machine.spotOccupied = false := by
  decide

/-- C1, amended: for every pre-cycle state and every reading below the threshold, a cycle
whose pending command is anything but `r` (or absent) ends with `spotOccupied` set. -/
theorem occupied_below_threshold (m : Machine) (pulse : Nat) (pending : Option Char)
    (hd : distanceOf (pulse : Int) < parkingThreshold) (hr : pending ≠ some 'r') :
    (loop m pulse pending).machine.spotOccupied = true := by
  rw [loop_spotOccupied]
  simp [hd, hr]

theorem occupied_below_threshold_witness :
    distanceOf ((500 : Nat) : Int) < parkingThreshold ∧ some 'o' ≠ some 'r' ∧
      (loop initial 500 (some 'o')).machine.spotOccupied = true :=
  ⟨by decide, by decide, occupied_below_threshold initial 500 (some 'o') (by decide) (by decide)⟩

/-- C2: for every pre-cycle state, every reading in `[15, 100)` and every pending command
(or none), the cycle ends with `spotOccupied` cleared. -/
theorem available_in_band (m : Machine) (pulse : Nat) (pending : Option Char)
    (h1 : parkingThreshold ≤ distanceOf (pulse : Int)) (h2 : distanceOf (pulse : Int) < 100) :
    (loop m pulse pending).machine.spotOccupied = false := by
  rw [loop_spotOccupied]
  have hd : ¬ distanceOf (pulse : Int) < parkingThreshold := not_lt.mpr h1
  simp [hd, h2]

theorem available_in_band_witness :
    parkingThreshold ≤ distanceOf ((2030 : Nat) : Int) ∧ distanceOf ((2030 : Nat) : Int) < 100 ∧
      (loop { initial with spotOccupied := true } 2030 (some 'c')).machine.spotOccupied
        = false :=
  ⟨by decide, by decide,
    available_in_band { initial with spotOccupied := true } 2030 (some 'c')
      (by decide) (by decide)⟩

/-- C3: for every pre-cycle state and every reading of 100 cm or more, a cycle with no
command pending logs the distance line and then `NO READING`, ends with the indicator blue,
writes nothing to the buzzer, and leaves `spotOccupied` and the gate angle as they were. -/
theorem no_reading_cycle (m : Machine) (pulse : Nat)
    (h : 100 ≤ distanceOf (pulse : Int)) :
    logLines (loop m pulse none).effects =
        ["Distance: " ++ toString (distanceOf (pulse : Int)) ++ " cm", "NO READING"] ∧
      (loop m pulse none).machine.indicator = (0, 0, 255) ∧
      buzzerWrites (loop m pulse none).effects = [] ∧
      (loop m pulse none).machine.spotOccupied = m.spotOccupied ∧
      (loop m pulse none).machine.servoAngle = m.servoAngle := by
  have hd : ¬ distanceOf (pulse : Int) < parkingThreshold := by
    simp only [parkingThreshold]; omega
  have h2 : ¬ distanceOf (pulse : Int) < 100 := not_lt.mpr h
  rw [loop_eq]
  simp [afterCommand, commandTrace, afterCheck, checkTrace, measured, hd, h2,
    Machine.indicator, triggerPulse, distanceReport, paint,
    logLines, logLinesAux, buzzerWrites, isBuzzerWrite, List.filter, trigPin, buzzerPin]

theorem no_reading_cycle_witness :
    100 ≤ distanceOf ((9030 : Nat) : Int) ∧
      logLines (loop { initial with spotOccupied := true, servoAngle := 90 } 9030 none).effects
        = ["Distance: 153 cm", "NO READING"] ∧
      (loop { initial with spotOccupied := true, servoAngle := 90 } 9030 none).machine.indicator
        = (0, 0, 255) ∧
      buzzerWrites
        (loop { initial with spotOccupied := true, servoAngle := 90 } 9030 none).effects = [] ∧
      (loop { initial with spotOccupied := true, servoAngle := 90 } 9030 none).machine.spotOccupied
        = true ∧
      (loop { initial with spotOccupied := true, servoAngle := 90 } 9030 none).machine.servoAngle
        = 90 :=
  ⟨by decide,
    no_reading_cycle { initial with spotOccupied := true, servoAngle := 90 } 9030 (by decide)⟩

/-! ## Edge triggering (C4) -/

/-- C4, as stated, fails in two ways. Started from the state left by `setup`:
after a cycle that reads 8 cm and consumes `r`, a second cycle reading 8 cm switches
`spotOccupied` on again, writes to the buzzer and repaints the indicator; and after a
cycle that reads 8 cm with no command, a second cycle reading 8 cm that consumes `r`
changes `spotOccupied` from occupied to available. -/
theorem repeated_reading_refires_after_reset :
    distanceOf 500 = 8 ∧ (8 : Int) < parkingThreshold ∧
      (step initial ⟨500, some 'r'⟩).spotOccupied = false ∧
      (loop (step initial ⟨500, some 'r'⟩) 500 none).machine.spotOccupied = true ∧
      buzzerWrites (loop (step initial ⟨500, some 'r'⟩) 500 none).effects ≠ [] ∧
      ledWrites (classification (step initial ⟨500, some 'r'⟩) 500).effects ≠ [] ∧
      (step initial ⟨500, none⟩).spotOccupied = true ∧
      (loop (step initial ⟨500, none⟩) 500 (some 'r')).machine.spotOccupied = false := by
  decide

theorem quiet_when_steady (m : Machine) (pulse : Nat) (pending : Option Char)
    (h : distanceOf (pulse : Int) < 100)
    (hs : m.spotOccupied = decide (distanceOf (pulse : Int) < parkingThreshold)) :
    (classification m pulse).machine.spotOccupied = m.spotOccupied ∧
      buzzerWrites (loop m pulse pending).effects = [] ∧
      ledWrites (classification m pulse).effects = [] := by
  refine ⟨?_, ?_, ?_⟩
  · rw [classification_spotOccupied, hs]
    by_cases hd : distanceOf (pulse : Int) < parkingThreshold <;> simp [hd, h]
  · rw [buzzerWrites_loop, buzzerWrites_checkTrace, measured_distance, measured_spotOccupied, hs]
    by_cases hd : distanceOf (pulse : Int) < parkingThreshold <;> simp [hd]
  · rw [classification_eq, ledWrites_append,
      ledWrites_checkTrace_steady (measured m pulse) h hs]
    rfl

/-- C4, amended: in every run of cycles from the state left by `setup`, if two consecutive
cycles both read in `[15, 100)`, or both read below 15 and the first of them does not
consume `r`, then the second fires no transition effect: its status check leaves
`spotOccupied` unchanged and does not write to the LED, the whole cycle writes nothing to
the buzzer, and the whole cycle leaves `spotOccupied` unchanged unless it reads below 15
and itself consumes `r`. -/
theorem steady_reading_fires_no_transition (pre : List Input) (a b : Input)
    (h : (distanceOf (a.pulse : Int) < parkingThreshold ∧
            distanceOf (b.pulse : Int) < parkingThreshold ∧ a.pending ≠ some 'r') ∨
         (parkingThreshold ≤ distanceOf (a.pulse : Int) ∧ distanceOf (a.pulse : Int) < 100 ∧
            parkingThreshold ≤ distanceOf (b.pulse : Int) ∧ distanceOf (b.pulse : Int) < 100)) :
    (classification (step (run initial pre) a) b.pulse).machine.spotOccupied
        = (step (run initial pre) a).spotOccupied ∧
      buzzerWrites (loop (step (run initial pre) a) b.pulse b.pending).effects = [] ∧
      ledWrites (classification (step (run initial pre) a) b.pulse).effects = [] ∧
      ((b.pending = some 'r' → parkingThreshold ≤ distanceOf (b.pulse : Int)) →
        (loop (step (run initial pre) a) b.pulse b.pending).machine.spotOccupied
          = (step (run initial pre) a).spotOccupied) := by
  have hb : distanceOf (b.pulse : Int) < 100 := by
    rcases h with ⟨_, h2, _⟩ | ⟨_, _, _, h4⟩
    · simp only [parkingThreshold] at h2; omega
    · exact h4
  have hs : (step (run initial pre) a).spotOccupied
      = decide (distanceOf (b.pulse : Int) < parkingThreshold) := by
    rw [step, loop_spotOccupied]
    rcases h with ⟨h1, h2, h3⟩ | ⟨h1, h2, h3, _⟩
    · simp [h1, h2, h3]
    · have n1 : ¬ distanceOf (a.pulse : Int) < parkingThreshold := not_lt.mpr h1
      have n3 : ¬ distanceOf (b.pulse : Int) < parkingThreshold := not_lt.mpr h3
      simp [n1, n3, h2]
  obtain ⟨c1, c2, c3⟩ := quiet_when_steady (step (run initial pre) a) b.pulse b.pending hb hs
  refine ⟨c1, c2, c3, ?_⟩
  intro hr
  rw [loop_spotOccupied, hs]
  by_cases hd : distanceOf (b.pulse : Int) < parkingThreshold
  · have : b.pending ≠ some 'r' := fun e => absurd hd (not_lt.mpr (hr e))
    simp [hd, this]
  · simp [hd, hb]

theorem steady_reading_fires_no_transition_witness :
    (classification (step (run initial [⟨9030, some 'o'⟩]) ⟨500, some 'c'⟩) 600).machine.spotOccupied
        = (step (run initial [⟨9030, some 'o'⟩]) ⟨500, some 'c'⟩).spotOccupied ∧
      buzzerWrites (loop (step (run initial [⟨9030, some 'o'⟩]) ⟨500, some 'c'⟩) 600
        (some 's')).effects = [] ∧
      ledWrites (classification (step (run initial [⟨9030, some 'o'⟩]) ⟨500, some 'c'⟩)
        600).effects = [] ∧
      (loop (step (run initial [⟨9030, some 'o'⟩]) ⟨500, some 'c'⟩) 600
        (some 's')).machine.spotOccupied
          = (step (run initial [⟨9030, some 'o'⟩]) ⟨500, some 'c'⟩).spotOccupied :=
  have w := steady_reading_fires_no_transition [⟨9030, some 'o'⟩] ⟨500, some 'c'⟩
    ⟨600, some 's'⟩ (Or.inl ⟨by decide, by decide, by decide⟩)
  ⟨w.1, w.2.1, w.2.2.1, w.2.2.2 (by decide)⟩

/-! ## Repeated readings (C5, C6) -/

theorem alerts_loop (m : Machine) (pulse : Nat) (pending : Option Char) :
    alerts (loop m pulse pending) =
      decide ((distanceOf (pulse : Int) < parkingThreshold ∧ m.spotOccupied = false) ∨
        (parkingThreshold ≤ distanceOf (pulse : Int) ∧ distanceOf (pulse : Int) < 100 ∧
          m.spotOccupied = true)) := by
  rw [alerts, buzzerWrites_loop, buzzerWrites_checkTrace, measured_distance,
    measured_spotOccupied]
  by_cases hd : distanceOf (pulse : Int) < parkingThreshold
  · have n1 : ¬ parkingThreshold ≤ distanceOf (pulse : Int) := not_le.mpr hd
    cases ho : m.spotOccupied <;>
    simp [hd, n1, buzzerWrites, isBuzzerWrite, occupiedAlert]
  · have h1 : parkingThreshold ≤ distanceOf (pulse : Int) := not_lt.mp hd
    by_cases h2 : distanceOf (pulse : Int) < 100
    · cases ho : m.spotOccupied <;>
      simp [hd, h1, h2, buzzerWrites, isBuzzerWrite, availableAlert]
    · simp [hd, h2]

theorem cycles_length (inputs : List Input) (m : Machine) :
    (cycles m inputs).length = inputs.length := by
  induction inputs generalizing m with
  | nil => rfl
  | cons i rest ih => simp [cycles, ih]

theorem cycles_steady (pulse : Nat) (h : distanceOf (pulse : Int) < 100) (k : Nat) :
    ∀ m : Machine, m.spotOccupied = decide (distanceOf (pulse : Int) < parkingThreshold) →
      ∀ r ∈ cycles m (List.replicate k ⟨pulse, none⟩),
        alerts r = false ∧ r.machine.spotOccupied = m.spotOccupied := by
  induction k with
  | zero => intro m _ r hr; simp [cycles] at hr
  | succ k ih =>
    intro m hs r hr
    have hkeep : (step m ⟨pulse, none⟩).spotOccupied = m.spotOccupied := by
      rw [step, loop_spotOccupied, hs]
      by_cases hd : distanceOf (pulse : Int) < parkingThreshold <;> simp [hd, h]
    have hquiet : alerts (loop m pulse none) = false := by
      rw [alerts, (quiet_when_steady m pulse none h hs).2.1]; rfl
    simp only [List.replicate_succ, cycles, List.mem_cons] at hr
    rcases hr with rfl | hr
    · exact ⟨hquiet, hkeep⟩
    · have := ih (step m ⟨pulse, none⟩) (hkeep.trans hs) r hr
      exact ⟨this.1, this.2.trans hkeep⟩

/-- C5: for every starting state, every reading below 100 cm and every `n ≥ 1`, running
`n` cycles with that reading and no command gives `n` cycles of which only the first may
sound the buzzer: the first does so exactly when the reading's band differs from the
starting `spotOccupied`, and the later cycles neither sound it nor change
`spotOccupied`. -/
theorem repeated_reading_alerts_once (m : Machine) (pulse : Nat) (n : Nat)
    (h : distanceOf (pulse : Int) < 100) (hn : 1 ≤ n) :
    ∃ first rest, cycles m (List.replicate n ⟨pulse, none⟩) = first :: rest ∧
      rest.length = n - 1 ∧
      (alerts first = true ↔
        (distanceOf (pulse : Int) < parkingThreshold ∧ m.spotOccupied = false) ∨
        (parkingThreshold ≤ distanceOf (pulse : Int) ∧ m.spotOccupied = true)) ∧
      (∀ r ∈ rest, alerts r = false) ∧
      (∀ r ∈ rest, r.machine.spotOccupied = first.machine.spotOccupied) := by
  obtain ⟨k, rfl⟩ : ∃ k, n = k + 1 := ⟨n - 1, by omega⟩
  have hs : (step m ⟨pulse, none⟩).spotOccupied
      = decide (distanceOf (pulse : Int) < parkingThreshold) := by
    rw [step, loop_spotOccupied]
    by_cases hd : distanceOf (pulse : Int) < parkingThreshold <;> simp [hd, h]
  refine ⟨loop m pulse none, cycles (step m ⟨pulse, none⟩) (List.replicate k ⟨pulse, none⟩),
    by simp [List.replicate_succ, cycles], by simp [cycles_length], ?_, ?_, ?_⟩
  · rw [alerts_loop]
    simp [h]
  · intro r hr
    exact (cycles_steady pulse h k _ hs r hr).1
  · intro r hr
    exact (cycles_steady pulse h k _ hs r hr).2

theorem repeated_reading_alerts_once_witness :
    distanceOf ((500 : Nat) : Int) < 100 ∧ 1 ≤ 3 ∧
      ∃ first rest, cycles initial (List.replicate 3 ⟨500, none⟩) = first :: rest ∧
        rest.length = 3 - 1 ∧
        (alerts first = true ↔
          (distanceOf ((500 : Nat) : Int) < parkingThreshold ∧ initial.spotOccupied = false) ∨
          (parkingThreshold ≤ distanceOf ((500 : Nat) : Int) ∧ initial.spotOccupied = true)) ∧
        (∀ r ∈ rest, alerts r = false) ∧
        (∀ r ∈ rest, r.machine.spotOccupied = first.machine.spotOccupied) :=
  ⟨by decide, by decide, repeated_reading_alerts_once initial 500 3 (by decide) (by decide)⟩

theorem observe_loop_in_band (m : Machine) (pulse : Nat)
    (h : distanceOf (pulse : Int) < 100) :
    observe (loop m pulse none) =
      (["Distance: " ++ toString (distanceOf (pulse : Int)) ++ " cm",
        if distanceOf (pulse : Int) < parkingThreshold then "OCCUPIED" else "AVAILABLE"],
       decide (distanceOf (pulse : Int) < parkingThreshold) != m.spotOccupied) := by
  have hlog : logLines (loop m pulse none).effects =
      ["Distance: " ++ toString (distanceOf (pulse : Int)) ++ " cm",
        if distanceOf (pulse : Int) < parkingThreshold then "OCCUPIED" else "AVAILABLE"] := by
    rw [loop_eq]
    by_cases hd : distanceOf (pulse : Int) < parkingThreshold <;>
    cases ho : m.spotOccupied <;>
    simp [commandTrace, checkTrace, measured, hd, h, ho, triggerPulse, distanceReport, paint,
      occupiedAlert, availableAlert, logLines, logLinesAux]
  have hal : alerts (loop m pulse none) =
      (decide (distanceOf (pulse : Int) < parkingThreshold) != m.spotOccupied) := by
    rw [alerts_loop]
    by_cases hd : distanceOf (pulse : Int) < parkingThreshold
    · have n1 : ¬ parkingThreshold ≤ distanceOf (pulse : Int) := not_le.mpr hd
      cases ho : m.spotOccupied <;> simp [hd, n1]
    · have h1 : parkingThreshold ≤ distanceOf (pulse : Int) := not_lt.mp hd
      cases ho : m.spotOccupied <;> simp [hd, h1, h]
  rw [observe, hlog, hal]

theorem cycles_observe (pulses : List Nat) :
    ∀ m : Machine, (∀ p ∈ pulses, distanceOf (p : Int) < 100) →
      (cycles m (pulses.map fun (p : Nat) => (⟨p, none⟩ : Input))).map observe =
        expectedOutputs m.spotOccupied (pulses.map fun (p : Nat) => distanceOf (p : Int)) := by
  induction pulses with
  | nil => intro m _; rfl
  | cons p rest ih =>
    intro m h
    have hp : distanceOf (p : Int) < 100 := h p (List.mem_cons_self p rest)
    have hs : (step m ⟨p, none⟩).spotOccupied
        = decide (distanceOf (p : Int) < parkingThreshold) := by
      rw [step, loop_spotOccupied]
      by_cases hd : distanceOf (p : Int) < parkingThreshold <;> simp [hd, hp]
    have ih2 := ih (step m ⟨p, none⟩) (fun q hq => h q (List.mem_cons_of_mem p hq))
    rw [hs] at ih2
    simp only [List.map_cons, cycles, expectedOutputs, observe_loop_in_band m p hp, ih2]

/-- C6: for every finite sequence of readings below 100 cm, run from the state left by
`setup` with no command ever pending, cycle `i` logs the distance line followed by
`OCCUPIED` if `d_i < 15` and `AVAILABLE` otherwise, and sounds the buzzer exactly when the
band of `d_i` differs from the band of `d_(i-1)`, taking AVAILABLE as the band before
the first reading. -/
theorem readings_log_and_alerts (pulses : List Nat)
    (h : ∀ p ∈ pulses, distanceOf (p : Int) < 100) :
    (cycles initial (pulses.map fun (p : Nat) => (⟨p, none⟩ : Input))).map observe =
      expectedOutputs false (pulses.map fun (p : Nat) => distanceOf (p : Int)) :=
  cycles_observe pulses initial h

theorem readings_log_and_alerts_witness :
    [1200, 1200, 600].map (fun p : Nat => distanceOf (p : Int)) = [20, 20, 10] ∧
      (cycles initial ([1200, 1200, 600].map fun (p : Nat) => (⟨p, none⟩ : Input))).map observe =
        [(["Distance: 20 cm", "AVAILABLE"], false), (["Distance: 20 cm", "AVAILABLE"], false),
         (["Distance: 10 cm", "OCCUPIED"], true)] :=
  ⟨by decide, readings_log_and_alerts [1200, 1200, 600] (by decide)⟩

/-! ## Echo timeout (C7) -/

/-- C7 fails on the code: a pulse width of 0 (echo timeout) gives a reading of 0 cm, which
is below the threshold, so for every pre-cycle state the cycle logs `OCCUPIED` and ends
with `spotOccupied` set; from the state left by `setup` it also turns the indicator red
and sounds the buzzer. -/
theorem timeout_reads_as_occupied :
    distanceOf ((0 : Nat) : Int) = 0 ∧
      (∀ m : Machine,
        logLines (loop m 0 none).effects = ["Distance: 0 cm", "OCCUPIED"] ∧
        (loop m 0 none).machine.spotOccupied = true) ∧
      initial.spotOccupied = false ∧
      (loop initial 0 none).machine.indicator = (255, 0, 0) ∧
      alerts (loop initial 0 none) = true := by
  refine ⟨by decide, ?_, by decide, by decide, by decide⟩
  intro m
  have hd : distanceOf ((0 : Nat) : Int) < 100 := by decide
  have hobs := observe_loop_in_band m 0 hd
  have hlog : logLines (loop m 0 none).effects = ["Distance: 0 cm", "OCCUPIED"] := by
    have := congrArg Prod.fst hobs
    simpa [observe] using this
  refine ⟨hlog, ?_⟩
  have h15 : distanceOf ((0 : Nat) : Int) < parkingThreshold := by decide
  rw [loop_spotOccupied, if_neg (by decide), if_pos h15]

/-! ## Buzzer (C8) -/

theorem buzzerWave_classification (m : Machine) (pulse : Nat) :
    buzzerWave (classification m pulse).effects =
      if distanceOf (pulse : Int) < parkingThreshold ∧ m.spotOccupied = false then
        [(Level.HIGH, 200), (Level.LOW, 200), (Level.HIGH, 200), (Level.LOW, 200)]
      else if parkingThreshold ≤ distanceOf (pulse : Int) ∧ distanceOf (pulse : Int) < 100 ∧
          m.spotOccupied = true then
        [(Level.HIGH, 500), (Level.LOW, 0)]
      else [] := by
  rw [classification_eq]
  by_cases hd : distanceOf (pulse : Int) < parkingThreshold
  · cases ho : m.spotOccupied <;>
    simp [checkTrace, measured, hd, ho, triggerPulse, distanceReport, paint, occupiedAlert,
      buzzerWave, holdMs, trigPin, buzzerPin]
  · have h1 : parkingThreshold ≤ distanceOf (pulse : Int) := not_lt.mp hd
    by_cases h2 : distanceOf (pulse : Int) < 100
    · cases ho : m.spotOccupied <;>
      simp [checkTrace, measured, hd, h1, h2, ho, triggerPulse, distanceReport, paint,
        availableAlert, buzzerWave, holdMs, trigPin, buzzerPin]
    · simp [checkTrace, measured, hd, h2, triggerPulse, distanceReport, paint,
        buzzerWave, holdMs, trigPin, buzzerPin]

theorem afterCheck_buzzerLevel (m : Machine) (h : m.buzzerLevel = Level.LOW) :
    (afterCheck m).buzzerLevel = Level.LOW := by
  unfold afterCheck
  split_ifs <;> simp [h]

theorem afterCommand_buzzerLevel (pending : Option Char) (m : Machine) :
    (afterCommand pending m).buzzerLevel = m.buzzerLevel := by
  cases pending with
  | none => rfl
  | some c =>
    simp only [afterCommand, afterDispatch]
    split_ifs <;> rfl

theorem loop_buzzerLevel (m : Machine) (pulse : Nat) (pending : Option Char)
    (h : m.buzzerLevel = Level.LOW) :
    (loop m pulse pending).machine.buzzerLevel = Level.LOW := by
  rw [loop_eq]
  exact (afterCommand_buzzerLevel _ _).trans (afterCheck_buzzerLevel _ h)

/-- In every state reached from `setup` the buzzer pin is low. -/
theorem run_buzzerLevel (inputs : List Input) :
    ∀ m : Machine, m.buzzerLevel = Level.LOW → (run m inputs).buzzerLevel = Level.LOW := by
  induction inputs with
  | nil => intro m h; exact h
  | cons i rest ih =>
    intro m h
    exact ih (step m i) (loop_buzzerLevel m i.pulse i.pending h)

/-- C8: for every pre-cycle state, reading and pending command, the waveform the status
check drives on the buzzer is HIGH 200 ms, LOW 200 ms, HIGH 200 ms, LOW 200 ms exactly when
the pre-cycle state is AVAILABLE and the reading is below 15; HIGH 500 ms then LOW exactly
when the pre-cycle state is OCCUPIED and the reading is in `[15, 100)`; and empty otherwise.
The rest of the cycle, command handling included, adds no write to the buzzer pin, and a
cycle entered with the buzzer low (as after `setup` and after every cycle) ends with it
low. -/
theorem buzzer_output (m : Machine) (pulse : Nat) (pending : Option Char) :
    buzzerWave (classification m pulse).effects =
        (if distanceOf (pulse : Int) < parkingThreshold ∧ m.spotOccupied = false then
          [(Level.HIGH, 200), (Level.LOW, 200), (Level.HIGH, 200), (Level.LOW, 200)]
        else if parkingThreshold ≤ distanceOf (pulse : Int) ∧ distanceOf (pulse : Int) < 100 ∧
            m.spotOccupied = true then
          [(Level.HIGH, 500), (Level.LOW, 0)]
        else []) ∧
      buzzerWrites (loop m pulse pending).effects
        = buzzerWrites (classification m pulse).effects ∧
      (m.buzzerLevel = Level.LOW → (loop m pulse pending).machine.buzzerLevel = Level.LOW) :=
  ⟨buzzerWave_classification m pulse,
    (buzzerWrites_loop m pulse pending).trans (buzzerWrites_classification m pulse).symm,
    loop_buzzerLevel m pulse pending⟩

theorem buzzer_output_witness :
    initial.buzzerLevel = Level.LOW ∧
      buzzerWave (classification initial 500).effects
        = [(Level.HIGH, 200), (Level.LOW, 200), (Level.HIGH, 200), (Level.LOW, 200)] ∧
      (loop initial 500 (some 'o')).machine.buzzerLevel = Level.LOW :=
  ⟨by decide, (buzzer_output initial 500 (some 'o')).1,
    (buzzer_output initial 500 (some 'o')).2.2 (by decide)⟩

/-! ## Indicator (C9) -/

/-- C9, as stated, fails. From the state left by `setup`: after a cycle that reads 8 cm
and consumes `o` (OCCUPIED, indicator yellow), a cycle reading 8 cm with no command pending
ends with the indicator still yellow, not red; and after a cycle that reads 153 cm
(indicator blue), a cycle reading 34 cm with no command pending ends AVAILABLE with the
indicator still blue, not green. -/
theorem steady_cycle_keeps_stale_colour :
    distanceOf 500 = 8 ∧ distanceOf 9030 = 153 ∧ distanceOf 2030 = 34 ∧
      (step initial ⟨500, some 'o'⟩).spotOccupied = true ∧
      (step initial ⟨500, some 'o'⟩).indicator = (255, 255, 0) ∧
      (loop (step initial ⟨500, some 'o'⟩) 500 none).machine.spotOccupied = true ∧
      (loop (step initial ⟨500, some 'o'⟩) 500 none).machine.indicator = (255, 255, 0) ∧
      (step initial ⟨9030, none⟩).indicator = (0, 0, 255) ∧
      (loop (step initial ⟨9030, none⟩) 2030 none).machine.spotOccupied = false ∧
      (loop (step initial ⟨9030, none⟩) 2030 none).machine.indicator = (0, 0, 255) := by
  decide

/-- C9, amended: for every pre-cycle state and reading, a cycle with no command pending
ends with the indicator blue if the reading is 100 or more, red if the reading is below 15
and the pre-cycle state was AVAILABLE, green if the reading is in `[15, 100)` and the
pre-cycle state was OCCUPIED, and otherwise (the reading confirms the pre-cycle state) at
its pre-cycle colour. -/
theorem indicator_after_cycle (m : Machine) (pulse : Nat) :
    (loop m pulse none).machine.indicator =
      if distanceOf (pulse : Int) < parkingThreshold then
        if m.spotOccupied = true then m.indicator else (255, 0, 0)
      else if distanceOf (pulse : Int) < 100 then
        if m.spotOccupied = true then (0, 255, 0) else m.indicator
      else (0, 0, 255) := by
  rw [loop_eq]
  by_cases hd : distanceOf (pulse : Int) < parkingThreshold
  · cases ho : m.spotOccupied <;>
    simp [afterCommand, afterCheck, measured, Machine.indicator, hd, ho]
  · by_cases h2 : distanceOf (pulse : Int) < 100
    · cases ho : m.spotOccupied <;>
      simp [afterCommand, afterCheck, measured, Machine.indicator, hd, h2, ho]
    · simp [afterCommand, afterCheck, measured, Machine.indicator, hd, h2]

/-! ## Reset (C10) -/

/-- C10: for every pre-cycle state and every reading, a cycle that consumes the command
`r` ends with the gate at angle 0, `spotOccupied` cleared and the indicator green, and the
last line it logs is `SYSTEM RESET`. -/
theorem reset_cycle (m : Machine) (pulse : Nat) :
    (loop m pulse (some 'r')).machine.servoAngle = 0 ∧
      (loop m pulse (some 'r')).machine.spotOccupied = false ∧
      (loop m pulse (some 'r')).machine.indicator = (0, 255, 0) ∧
      (logLines (loop m pulse (some 'r')).effects).getLast? = some "SYSTEM RESET" := by
  rw [loop_eq]
  refine ⟨by simp [afterCommand, afterDispatch], by simp [afterCommand, afterDispatch],
    by simp [afterCommand, afterDispatch, Machine.indicator], ?_⟩
  by_cases hd : distanceOf (pulse : Int) < parkingThreshold
  · cases ho : m.spotOccupied <;>
    simp [commandTrace, dispatchTrace, checkTrace, measured, hd, ho, triggerPulse,
      distanceReport, paint, occupiedAlert, logLines, logLinesAux]
  · by_cases h2 : distanceOf (pulse : Int) < 100
    · cases ho : m.spotOccupied <;>
      simp [commandTrace, dispatchTrace, checkTrace, measured, hd, h2, ho, triggerPulse,
        distanceReport, paint, availableAlert, logLines, logLinesAux]
    · simp [commandTrace, dispatchTrace, checkTrace, measured, hd, h2, triggerPulse,
        distanceReport, paint, logLines, logLinesAux]

/-! ## The log of a cycle -/

theorem logLines_loop (m : Machine) (pulse : Nat) (pending : Option Char) :
    logLines (loop m pulse pending).effects =
      ["Distance: " ++ toString (distanceOf (pulse : Int)) ++ " cm",
        statusLine (distanceOf (pulse : Int))]
        ++ commandLines pending (classification m pulse).machine.spotOccupied := by
  rw [loop_eq, classification_eq]
  cases pending with
  | none =>
    by_cases hd : distanceOf (pulse : Int) < parkingThreshold
    · cases ho : m.spotOccupied <;>
      simp [commandTrace, commandLines, statusLine, checkTrace, measured, hd, ho, triggerPulse,
        distanceReport, paint, occupiedAlert, logLines, logLinesAux]
    · by_cases h2 : distanceOf (pulse : Int) < 100
      · cases ho : m.spotOccupied <;>
        simp [commandTrace, commandLines, statusLine, checkTrace, measured, hd, h2, ho,
          triggerPulse, distanceReport, paint, availableAlert, logLines, logLinesAux]
      · simp [commandTrace, commandLines, statusLine, checkTrace, measured, hd, h2,
          triggerPulse, distanceReport, paint, logLines, logLinesAux]
  | some c =>
    by_cases hd : distanceOf (pulse : Int) < parkingThreshold
    · cases ho : m.spotOccupied <;>
      simp only [commandTrace, dispatchTrace, commandLines, commandLine] <;>
      split_ifs <;>
      simp [statusLine, checkTrace, afterCheck, measured, hd, ho, triggerPulse,
        distanceReport, paint, occupiedAlert, logLines, logLinesAux]
    · by_cases h2 : distanceOf (pulse : Int) < 100
      · cases ho : m.spotOccupied <;>
        simp only [commandTrace, dispatchTrace, commandLines, commandLine] <;>
        split_ifs <;>
        simp [statusLine, checkTrace, afterCheck, measured, hd, h2, ho,
          triggerPulse, distanceReport, paint, availableAlert, logLines, logLinesAux]
      · simp only [commandTrace, dispatchTrace, commandLines, commandLine]
        split_ifs <;>
        simp [statusLine, checkTrace, afterCheck, measured, hd, h2,
          triggerPulse, distanceReport, paint, logLines, logLinesAux]

theorem loop_machine (m : Machine) (pulse : Nat) (pending : Option Char) :
    (loop m pulse pending).machine = afterCommand pending (classification m pulse).machine := by
  rw [loop_eq, classification_eq]

theorem loop_effects (m : Machine) (pulse : Nat) (pending : Option Char) :
    (loop m pulse pending).effects =
      (classification m pulse).effects
        ++ commandTrace pending (classification m pulse).machine.spotOccupied
        ++ [Effect.delay 500] := by
  rw [loop_eq, classification_eq]

/-! ## Gate commands (C11, C13) -/

/-- C11: for every pre-cycle state and every reading, a cycle that consumes the command
`c` ends with the gate at angle 0, logs `Gate CLOSED` as its last line, leaves
`spotOccupied` as the status check of that cycle left it, and ends with the indicator red
if that flag is set and green if it is clear, whatever the reading was. -/
theorem close_cycle (m : Machine) (pulse : Nat) :
    (loop m pulse (some 'c')).machine.servoAngle = 0 ∧
      (logLines (loop m pulse (some 'c')).effects).getLast? = some "Gate CLOSED" ∧
      (loop m pulse (some 'c')).machine.spotOccupied
        = (classification m pulse).machine.spotOccupied ∧
      (loop m pulse (some 'c')).machine.indicator
        = (if (loop m pulse (some 'c')).machine.spotOccupied = true then (255, 0, 0)
           else (0, 255, 0)) := by
  refine ⟨?_, ?_, ?_, ?_⟩
  · rw [loop_machine]; simp [afterCommand, afterDispatch]
  · rw [logLines_loop]; simp [commandLines, commandLine]
  · rw [loop_machine]; simp [afterCommand, afterDispatch]
  · rw [loop_machine]
    cases ho : (classification m pulse).machine.spotOccupied <;>
    simp [afterCommand, afterDispatch, Machine.indicator, ho]

/-- C13: for every pre-cycle state and every reading, a cycle that consumes the command
`o` ends with the gate at angle 90 and the indicator yellow, logs `Gate OPENED` as its last
line, and leaves `spotOccupied` as the status check of that cycle left it; after the status
check its trace is the servo write, the log line, the three LED writes, the 1000 ms pause
and the 500 ms pause that ends every cycle. -/
theorem open_cycle (m : Machine) (pulse : Nat) :
    (loop m pulse (some 'o')).machine.servoAngle = 90 ∧
      (loop m pulse (some 'o')).machine.indicator = (255, 255, 0) ∧
      (logLines (loop m pulse (some 'o')).effects).getLast? = some "Gate OPENED" ∧
      (loop m pulse (some 'o')).effects =
        (classification m pulse).effects ++
          [Effect.servoWrite 90, Effect.println "Gate OPENED", Effect.analogWrite red 255,
           Effect.analogWrite green 255, Effect.analogWrite blue 0, Effect.delay 1000,
           Effect.delay 500] ∧
      (loop m pulse (some 'o')).machine.spotOccupied
        = (classification m pulse).machine.spotOccupied := by
  refine ⟨?_, ?_, ?_, ?_, ?_⟩
  · rw [loop_machine]; simp [afterCommand, afterDispatch]
  · rw [loop_machine]; simp [afterCommand, afterDispatch, Machine.indicator]
  · rw [logLines_loop]; simp [commandLines, commandLine]
  · rw [loop_effects]; simp [commandTrace, dispatchTrace, paint]
  · rw [loop_machine]; simp [afterCommand, afterDispatch]

/-! ## Status request and unknown bytes (C14, C15) -/

/-- C14: for every pre-cycle state and reading, a cycle that consumes the command `s`
logs, after the lines of the same cycle without a command, `STATUS:OCCUPIED` if
`spotOccupied` is set after the status check and `STATUS:AVAILABLE` otherwise, and does
nothing else: its trace is the trace of the command-free cycle with that one line inserted
before the closing pause, so the buzzer writes are the same, and the machine state at the
end (occupancy, gate angle, indicator, buzzer level) is the same. -/
theorem status_cycle (m : Machine) (pulse : Nat) :
    logLines (loop m pulse (some 's')).effects =
        logLines (loop m pulse none).effects ++
          [if (classification m pulse).machine.spotOccupied = true then "STATUS:OCCUPIED"
           else "STATUS:AVAILABLE"] ∧
      (loop m pulse (some 's')).machine = (loop m pulse none).machine ∧
      (loop m pulse none).effects = (classification m pulse).effects ++ [Effect.delay 500] ∧
      (loop m pulse (some 's')).effects =
        (classification m pulse).effects ++
          [Effect.println (if (classification m pulse).machine.spotOccupied = true
             then "STATUS:OCCUPIED" else "STATUS:AVAILABLE"), Effect.delay 500] ∧
      buzzerWrites (loop m pulse (some 's')).effects
        = buzzerWrites (loop m pulse none).effects := by
  refine ⟨?_, ?_, ?_, ?_, ?_⟩
  · rw [logLines_loop, logLines_loop]
    cases ho : (classification m pulse).machine.spotOccupied <;>
    simp [commandLines, commandLine]
  · rw [loop_machine, loop_machine]; simp [afterCommand, afterDispatch]
  · rw [loop_effects]; simp [commandTrace]
  · rw [loop_effects]
    cases ho : (classification m pulse).machine.spotOccupied <;>
    simp [commandTrace, dispatchTrace]
  · rw [buzzerWrites_loop, buzzerWrites_loop]

/-- C15: for every byte other than `o`, `c`, `s`, `r`, and for every pre-cycle state and
reading, the cycle logs `INVALID COMMAND` after the lines of the same cycle without a
command, its trace is that of the command-free cycle with this one line inserted before
the closing pause, and the machine state at the end (occupancy, gate angle, indicator) is
that of the command-free cycle. -/
theorem invalid_command_cycle (c : Char) (m : Machine) (pulse : Nat)
    (ho : c ≠ 'o') (hc : c ≠ 'c') (hs : c ≠ 's') (hr : c ≠ 'r') :
    logLines (loop m pulse (some c)).effects =
        logLines (loop m pulse none).effects ++ ["INVALID COMMAND"] ∧
      (loop m pulse (some c)).machine = (loop m pulse none).machine ∧
      (loop m pulse (some c)).effects =
        (classification m pulse).effects ++
          [Effect.println "INVALID COMMAND", Effect.delay 500] := by
  refine ⟨?_, ?_, ?_⟩
  · rw [logLines_loop, logLines_loop]
    simp [commandLines, commandLine, ho, hc, hs, hr]
  · rw [loop_machine, loop_machine]; simp [afterCommand, afterDispatch, ho, hc, hs, hr]
  · rw [loop_effects]; simp [commandTrace, dispatchTrace, ho, hc, hs, hr]

theorem invalid_command_cycle_witness :
    ('x' ≠ 'o' ∧ 'x' ≠ 'c' ∧ 'x' ≠ 's' ∧ 'x' ≠ 'r') ∧
      (logLines (loop { initial with spotOccupied := true, servoAngle := 90 } 500
          (some 'x')).effects =
        logLines (loop { initial with spotOccupied := true, servoAngle := 90 } 500
          none).effects ++ ["INVALID COMMAND"] ∧
       (loop { initial with spotOccupied := true, servoAngle := 90 } 500 (some 'x')).machine
        = (loop { initial with spotOccupied := true, servoAngle := 90 } 500 none).machine ∧
       (loop { initial with spotOccupied := true, servoAngle := 90 } 500 (some 'x')).effects =
        (classification { initial with spotOccupied := true, servoAngle := 90 } 500).effects ++
          [Effect.println "INVALID COMMAND", Effect.delay 500]) ∧
      (loop initial 2030 (some 'O')).machine = (loop initial 2030 none).machine ∧
      (loop initial 2030 (some (Char.ofNat 10))).machine = (loop initial 2030 none).machine :=
  ⟨by decide,
    invalid_command_cycle 'x' { initial with spotOccupied := true, servoAngle := 90 } 500
      (by decide) (by decide) (by decide) (by decide),
    (invalid_command_cycle 'O' initial 2030 (by decide) (by decide) (by decide)
      (by decide)).2.1,
    (invalid_command_cycle (Char.ofNat 10) initial 2030 (by decide) (by decide) (by decide)
      (by decide)).2.1⟩

/-! ## The indicator invariant (C18) and the open/close round trip (C12) -/

theorem consistent_initial : Consistent initial := by
  unfold Consistent
  decide

theorem consistent_afterCheck (m : Machine) (h : Consistent m) : Consistent (afterCheck m) := by
  obtain ⟨h1, h2⟩ := h
  unfold Consistent afterCheck
  simp only [Machine.indicator] at h1 h2 ⊢
  cases ho : m.spotOccupied <;> split_ifs <;> simp_all

theorem consistent_afterCommand (pending : Option Char) (m : Machine) (h : Consistent m) :
    Consistent (afterCommand pending m) := by
  obtain ⟨h1, h2⟩ := h
  cases pending with
  | none => exact ⟨h1, h2⟩
  | some c =>
    unfold Consistent
    simp only [afterCommand, afterDispatch, Machine.indicator] at h1 h2 ⊢
    cases ho : m.spotOccupied <;> split_ifs <;> simp_all

theorem consistent_classification (m : Machine) (pulse : Nat) (h : Consistent m) :
    Consistent (classification m pulse).machine := by
  rw [classification_eq]
  exact consistent_afterCheck (measured m pulse) h

theorem consistent_loop (m : Machine) (pulse : Nat) (pending : Option Char)
    (h : Consistent m) : Consistent (loop m pulse pending).machine := by
  rw [loop_machine]
  exact consistent_afterCommand pending _ (consistent_classification m pulse h)

theorem consistent_run (inputs : List Input) :
    ∀ m : Machine, Consistent m → Consistent (run m inputs) := by
  induction inputs with
  | nil => intro m h; exact h
  | cons i rest ih =>
    intro m h
    exact ih (step m i) (consistent_loop m i.pulse i.pending h)

/-- C18: in every state reached from the state left by `setup`, under any sequence of
readings and command bytes, a red indicator comes with `spotOccupied` set and a green one
with `spotOccupied` clear. The converse fails: blue and yellow are reached in both
occupancy states. -/
theorem indicator_never_contradicts (inputs : List Input) :
    ((run initial inputs).indicator = (255, 0, 0) → (run initial inputs).spotOccupied = true) ∧
      ((run initial inputs).indicator = (0, 255, 0) →
        (run initial inputs).spotOccupied = false) ∧
      ((run initial [⟨500, none⟩, ⟨9030, none⟩]).indicator = (0, 0, 255) ∧
        (run initial [⟨500, none⟩, ⟨9030, none⟩]).spotOccupied = true) ∧
      ((run initial [⟨9030, none⟩]).indicator = (0, 0, 255) ∧
        (run initial [⟨9030, none⟩]).spotOccupied = false) ∧
      ((run initial [⟨500, some 'o'⟩]).indicator = (255, 255, 0) ∧
        (run initial [⟨500, some 'o'⟩]).spotOccupied = true) ∧
      ((run initial [⟨2030, some 'o'⟩]).indicator = (255, 255, 0) ∧
        (run initial [⟨2030, some 'o'⟩]).spotOccupied = false) := by
  have h := consistent_run inputs initial consistent_initial
  exact ⟨h.1, h.2, by decide, by decide, by decide, by decide⟩

theorem indicator_never_contradicts_witness :
    (run initial [⟨500, none⟩, ⟨2030, some 'c'⟩, ⟨500, some 's'⟩]).indicator = (255, 0, 0) ∧
      (run initial [⟨500, none⟩, ⟨2030, some 'c'⟩, ⟨500, some 's'⟩]).spotOccupied = true ∧
      (run initial [⟨500, none⟩, ⟨2030, some 'c'⟩]).indicator = (0, 255, 0) ∧
      (run initial [⟨500, none⟩, ⟨2030, some 'c'⟩]).spotOccupied = false :=
  ⟨by decide,
    (indicator_never_contradicts [⟨500, none⟩, ⟨2030, some 'c'⟩, ⟨500, some 's'⟩]).1
      (by decide),
    by decide,
    (indicator_never_contradicts [⟨500, none⟩, ⟨2030, some 'c'⟩]).2.1 (by decide)⟩

/-! ## Gate angle (C16) -/

theorem afterCommand_servoAngle (pending : Option Char) (m : Machine) :
    (afterCommand pending m).servoAngle =
      if pending = some 'o' then 90
      else if pending = some 'c' ∨ pending = some 'r' then 0
      else m.servoAngle := by
  cases pending with
  | none => simp [afterCommand]
  | some c =>
    simp only [afterCommand, afterDispatch, Option.some.injEq]
    split_ifs <;> simp_all

theorem afterCheck_servoAngle (m : Machine) : (afterCheck m).servoAngle = m.servoAngle := by
  unfold afterCheck
  split_ifs <;> rfl

theorem loop_servoAngle (m : Machine) (pulse : Nat) (pending : Option Char) :
    (loop m pulse pending).machine.servoAngle =
      if pending = some 'o' then 90
      else if pending = some 'c' ∨ pending = some 'r' then 0
      else m.servoAngle := by
  rw [loop_eq]
  simp only [afterCommand_servoAngle, afterCheck_servoAngle, measured]

theorem run_servoAngle (inputs : List Input) :
    ∀ m : Machine, (m.servoAngle = 0 ∨ m.servoAngle = 90) →
      ((run m inputs).servoAngle = 0 ∨ (run m inputs).servoAngle = 90) := by
  induction inputs with
  | nil => intro m h; exact h
  | cons i rest ih =>
    intro m h
    apply ih (step m i)
    rw [step, loop_servoAngle]
    split_ifs
    · exact Or.inr rfl
    · exact Or.inl rfl
    · exact h

theorem setup_servoAngle (start : Machine) : (setup start).machine.servoAngle = 0 := by
  simp [setup, servoWrite, setRGB, analogWrite, pinMode, serialPrint, serialPrintln, emit,
    red, green, blue]

/-- C16: whatever the state before it, `setup` leaves the gate angle at 0; a cycle sets it
to 90 when it consumes `o`, to 0 when it consumes `c` or `r`, and leaves it unchanged
otherwise (no command, `s`, any other byte), whatever the reading; so in every state
reached from `setup` the angle is 0 or 90. -/
theorem gate_angle (start : Machine) (inputs : List Input) (m : Machine) (pulse : Nat)
    (pending : Option Char) :
    (setup start).machine.servoAngle = 0 ∧
      (loop m pulse pending).machine.servoAngle =
        (if pending = some 'o' then 90
         else if pending = some 'c' ∨ pending = some 'r' then 0
         else m.servoAngle) ∧
      ((run (setup start).machine inputs).servoAngle = 0 ∨
        (run (setup start).machine inputs).servoAngle = 90) ∧
      ((run initial inputs).servoAngle = 0 ∨ (run initial inputs).servoAngle = 90) :=
  ⟨setup_servoAngle start, loop_servoAngle m pulse pending,
    run_servoAngle inputs (setup start).machine (Or.inl (setup_servoAngle start)),
    run_servoAngle inputs initial (Or.inl (setup_servoAngle powerOn))⟩

/-! ## `setRGB` (C17) -/

theorem constrain_eq (x : Int) : constrain x 0 255 = min (max x 0) 255 := by
  unfold constrain
  split_ifs <;> omega

/-- C17: for all integers `r`, `g`, `b`, `setRGB r g b` writes `min (max r 0) 255` to the
red channel, `min (max g 0) 255` to the green channel and `min (max b 0) 255` to the blue
channel, in that order and nothing else; every value written lies in `[0, 255]`, and a value
already in `[0, 255]` is written unchanged. -/
theorem setRGB_clamps (r g b : Int) (start : Run) :
    (setRGB r g b start).effects = start.effects ++
        [Effect.analogWrite red (min (max r 0) 255), Effect.analogWrite green (min (max g 0) 255),
         Effect.analogWrite blue (min (max b 0) 255)] ∧
      (setRGB r g b start).machine.indicator
        = (min (max r 0) 255, min (max g 0) 255, min (max b 0) 255) ∧
      (0 ≤ min (max r 0) 255 ∧ min (max r 0) 255 ≤ 255) ∧
      (0 ≤ min (max g 0) 255 ∧ min (max g 0) 255 ≤ 255) ∧
      (0 ≤ min (max b 0) 255 ∧ min (max b 0) 255 ≤ 255) ∧
      (0 ≤ r → r ≤ 255 → min (max r 0) 255 = r) ∧
      (0 ≤ g → g ≤ 255 → min (max g 0) 255 = g) ∧
      (0 ≤ b → b ≤ 255 → min (max b 0) 255 = b) := by
  refine ⟨?_, ?_, by omega, by omega, by omega, by omega, by omega, by omega⟩
  · simp [setRGB, constrain_eq, analogWrite, emit, red, green, blue]
  · simp [setRGB, constrain_eq, analogWrite, emit, red, green, blue, Machine.indicator]

theorem setRGB_clamps_witness :
    (setRGB 300 (-7) 128 { machine := initial, effects := [] }).effects =
        [Effect.analogWrite red 255, Effect.analogWrite green 0, Effect.analogWrite blue 128] ∧
      (setRGB 300 (-7) 128 { machine := initial, effects := [] }).machine.indicator
        = (255, 0, 128) ∧
      min (max (128 : Int) 0) 255 = 128 :=
  ⟨(setRGB_clamps 300 (-7) 128 { machine := initial, effects := [] }).1,
    (setRGB_clamps 300 (-7) 128 { machine := initial, effects := [] }).2.1,
    (setRGB_clamps 128 128 128 { machine := initial, effects := [] }).2.2.2.2.2.1
      (by decide) (by decide)⟩

/-! ## The log protocol (C19) -/

/-- C19: for every pre-cycle state, reading `d` and optional pending byte, the lines logged
by one cycle are, in order, the distance line, one status line, and the lines of command
handling. The status line depends on `d` only: it is `OCCUPIED` iff `d < 15`, `AVAILABLE`
iff `15 ≤ d < 100` and `NO READING` iff `100 ≤ d`. Command handling logs nothing when no
byte is pending and exactly one line, among the six command lines, when a byte is
consumed. -/
theorem cycle_log (m : Machine) (pulse : Nat) (pending : Option Char) :
    logLines (loop m pulse pending).effects =
        ["Distance: " ++ toString (distanceOf (pulse : Int)) ++ " cm",
          statusLine (distanceOf (pulse : Int))]
          ++ commandLines pending (classification m pulse).machine.spotOccupied ∧
      (statusLine (distanceOf (pulse : Int)) = "OCCUPIED"
        ↔ distanceOf (pulse : Int) < parkingThreshold) ∧
      (statusLine (distanceOf (pulse : Int)) = "AVAILABLE"
        ↔ parkingThreshold ≤ distanceOf (pulse : Int) ∧ distanceOf (pulse : Int) < 100) ∧
      (statusLine (distanceOf (pulse : Int)) = "NO READING"
        ↔ 100 ≤ distanceOf (pulse : Int)) ∧
      (∀ occupied : Bool, commandLines none occupied = []) ∧
      (∀ (c : Char) (occupied : Bool), ∃ line, commandLines (some c) occupied = [line] ∧
        line ∈ ["Gate OPENED", "Gate CLOSED", "STATUS:OCCUPIED", "STATUS:AVAILABLE",
          "SYSTEM RESET", "INVALID COMMAND"]) := by
  refine ⟨logLines_loop m pulse pending, ?_, ?_, ?_, fun _ => rfl, ?_⟩
  · unfold statusLine
    split_ifs with h1 h2 <;> simp [h1]
  · unfold statusLine
    split_ifs with h1 h2
    · simp [not_le.mpr h1]
    · simp [not_lt.mp h1, h2]
    · simp [h2]
  · unfold statusLine
    split_ifs with h1 h2
    · simp only [parkingThreshold] at h1
      simp; omega
    · simp; omega
    · simp; omega
  · intro c occupied
    refine ⟨commandLine c occupied, rfl, ?_⟩
    unfold commandLine
    cases occupied <;> split_ifs <;> simp

/-! ## The conversion on the exact-arithmetic model -/

/-- On the exact-arithmetic model of line 59 (binary rounding not modelled), a pulse width
`t` reads `17 * t / 1000` rounded down; readings do not decrease with `t`, are below the
threshold exactly for `t ≤ 882` and reach 100 exactly for `t ≥ 5883`. -/
theorem distanceOf_model (t u : Nat) :
    distanceOf (t : Int) = ((17 * t / 1000 : Nat) : Int) ∧
      (t ≤ u → distanceOf (t : Int) ≤ distanceOf (u : Int)) ∧
      (distanceOf (t : Int) < parkingThreshold ↔ t ≤ 882) ∧
      (100 ≤ distanceOf (t : Int) ↔ 5883 ≤ t) := by
  have ht : distanceOf (t : Int) = (t : Int) * 17 / 1000 :=
    Int.tdiv_eq_ediv (by positivity) (by decide)
  have hu : distanceOf (u : Int) = (u : Int) * 17 / 1000 :=
    Int.tdiv_eq_ediv (by positivity) (by decide)
  simp only [parkingThreshold]
  refine ⟨by omega, fun _ => by omega, by omega, by omega⟩

/-! ## Line 59 in floating point (C20) -/

theorem bitLengthAux_le (fuel : Nat) : ∀ n m : Nat, n < 2 ^ m → bitLengthAux fuel n ≤ m := by
  induction fuel with
  | zero => intro n m _; simp [bitLengthAux]
  | succ fuel ih =>
    intro n m h
    unfold bitLengthAux
    split_ifs with h0
    · exact Nat.zero_le m
    · cases m with
      | zero => simp at h; exact absurd h h0
      | succ k =>
        have : n / 2 < 2 ^ k := by
          rw [pow_succ] at h
          omega
        exact Nat.succ_le_succ (ih (n / 2) k this)

theorem shift_le (p s n : Nat) (h : n < 2 ^ (p + s)) : bitLength n - p ≤ s := by
  have := bitLengthAux_le n n (p + s) h
  unfold bitLength
  omega

theorem divRoundEven_ge (a b : Nat) : a / b ≤ divRoundEven a b := by
  unfold divRoundEven
  split_ifs <;> omega

theorem divRoundEven_le (a b : Nat) : divRoundEven a b ≤ a / b + 1 := by
  unfold divRoundEven
  split_ifs <;> omega

theorem divRoundEven_eq_of_lt (a b : Nat) (h : 2 * (a % b) < b) : divRoundEven a b = a / b := by
  unfold divRoundEven
  simp [h]

/-- Rounding does not go below a representable value that the argument reaches. -/
theorem roundNearestEven_ge (p n lower : Nat) (hle : lower ≤ n)
    (hdvd : 2 ^ (bitLength n - p) ∣ lower) : lower ≤ roundNearestEven p n := by
  obtain ⟨a, rfl⟩ := hdvd
  unfold roundNearestEven
  have hg : 0 < 2 ^ (bitLength n - p) := by positivity
  have ha : a ≤ n / 2 ^ (bitLength n - p) := by
    rw [Nat.le_div_iff_mul_le hg, Nat.mul_comm]; exact hle
  rw [Nat.mul_comm]
  exact Nat.mul_le_mul_right _ (ha.trans (divRoundEven_ge _ _))

/-- Rounding stays below a representable value that lies more than half a step above the
argument. -/
theorem roundNearestEven_lt (p n upper : Nat) (hlt : n < upper)
    (hdvd : 2 ^ (bitLength n - p) ∣ upper)
    (hgap : 2 ^ (bitLength n - p) < 2 * (upper - n)) : roundNearestEven p n < upper := by
  obtain ⟨b, rfl⟩ := hdvd
  unfold roundNearestEven
  generalize 2 ^ (bitLength n - p) = g at *
  have hg : 0 < g := by
    rcases Nat.eq_zero_or_pos g with h | h
    · subst h; simp at hlt
    · exact h
  have hq : n / g < b := by
    rw [Nat.div_lt_iff_lt_mul hg, Nat.mul_comm]; exact hlt
  have hdm : g * (n / g) + n % g = n := Nat.div_add_mod n g
  have hr : n % g < g := Nat.mod_lt n hg
  rw [Nat.mul_comm g b]
  apply Nat.mul_lt_mul_of_pos_right _ hg
  by_cases hsmall : 2 * (n % g) < g
  · rw [divRoundEven_eq_of_lt _ _ hsmall]; exact hq
  · have hle := divRoundEven_le n g
    by_contra hcon
    have hb : b = n / g + 1 := by omega
    subst hb
    have : g * (n / g + 1) = g * (n / g) + g := by ring
    rw [this] at hgap
    omega

theorem coefficient_binary32 : coefficient 24 = 9126806 := by decide

theorem coefficient_binary64 : coefficient 53 = 4899916394579100 := by decide

/-- The rounded product, divided by `2 ^ k` and truncated, lies between `lo` and `hi` as
soon as the exact product does and stays more than half a rounding step below
`(hi + 1) * 2 ^ k`. -/
theorem rounded_quotient_window (p k s n lo hi : Nat)
    (hn : n < 2 ^ (p + s)) (hs : s ≤ k) (hlo : lo * 2 ^ k ≤ n) (hhi : n < (hi + 1) * 2 ^ k)
    (hgap : 2 ^ s < 2 * ((hi + 1) * 2 ^ k - n)) :
    lo ≤ roundNearestEven p n / 2 ^ k ∧ roundNearestEven p n / 2 ^ k ≤ hi := by
  have hshift : bitLength n - p ≤ s := shift_le p s n hn
  have hdvd : 2 ^ (bitLength n - p) ∣ 2 ^ k := pow_dvd_pow 2 (hshift.trans hs)
  have hk : 0 < 2 ^ k := by positivity
  constructor
  · rw [Nat.le_div_iff_mul_le hk]
    exact roundNearestEven_ge p n _ hlo (hdvd.mul_left lo)
  · have hstep : 2 ^ (bitLength n - p) ≤ 2 ^ s := Nat.pow_le_pow_right (by decide) hshift
    have := roundNearestEven_lt p n _ hhi (hdvd.mul_left (hi + 1)) (lt_of_le_of_lt hstep hgap)
    exact Nat.lt_succ_iff.mp ((Nat.div_lt_iff_lt_mul hk).mpr this)

theorem readingOf_binary32_exact (t : Nat) (ht : t ≤ 554646) :
    readingOf FloatFormat.binary32 t = ((17 * t / 1000 : Nat) : Int) := by
  have h := rounded_quotient_window 24 29 19 (t * 9126806) (17 * t / 1000) (17 * t / 1000)
    (by norm_num; omega) (by decide) (by norm_num; omega) (by norm_num; omega)
    (by
      norm_num
      rcases Nat.lt_or_ge (17 * t % 1000) 999 with hres | hres <;> omega)
  simp only [readingOf, FloatFormat.precision, coefficient_binary32]
  exact_mod_cast le_antisymm h.2 h.1

theorem readingOf_binary64_exact (t : Nat) (ht : t ≤ 1000000) :
    readingOf FloatFormat.binary64 t = ((17 * t / 1000 : Nat) : Int) := by
  have h := rounded_quotient_window 53 58 20 (t * 4899916394579100) (17 * t / 1000)
    (17 * t / 1000)
    (by norm_num; omega) (by decide) (by norm_num; omega) (by norm_num; omega)
    (by norm_num; omega)
  simp only [readingOf, FloatFormat.precision, coefficient_binary64]
  exact_mod_cast le_antisymm h.2 h.1

theorem readingOf_binary32_window (t : Nat) (ht : t ≤ 1000000) :
    ((17 * t / 1000 : Nat) : Int) ≤ readingOf FloatFormat.binary32 t ∧
      readingOf FloatFormat.binary32 t ≤ (((17 * t + 1) / 1000 : Nat) : Int) := by
  have h := rounded_quotient_window 24 29 20 (t * 9126806) (17 * t / 1000)
    ((17 * t + 1) / 1000)
    (by norm_num; omega) (by decide) (by norm_num; omega) (by norm_num; omega)
    (by norm_num; omega)
  simp only [readingOf, FloatFormat.precision, coefficient_binary32]
  exact ⟨by exact_mod_cast h.1, by exact_mod_cast h.2⟩

theorem readingOf_window (fmt : FloatFormat) (t : Nat) (ht : t ≤ 1000000) :
    ((17 * t / 1000 : Nat) : Int) ≤ readingOf fmt t ∧
      readingOf fmt t ≤ (((17 * t + 1) / 1000 : Nat) : Int) := by
  cases fmt with
  | binary32 => exact readingOf_binary32_window t ht
  | binary64 =>
    rw [readingOf_binary64_exact t ht]
    exact ⟨le_refl _, by exact_mod_cast Nat.div_le_div_right (Nat.le_succ (17 * t))⟩

theorem readingOf_mono (fmt : FloatFormat) (t u : Nat) (hu : u ≤ 1000000) (htu : t ≤ u) :
    readingOf fmt t ≤ readingOf fmt u := by
  rcases Nat.eq_or_lt_of_le htu with rfl | hlt
  · exact le_refl _
  · have h1 := (readingOf_window fmt t (htu.trans hu)).2
    have h2 := (readingOf_window fmt u hu).1
    have h3 : (17 * t + 1) / 1000 ≤ 17 * u / 1000 := Nat.div_le_div_right (by omega)
    exact h1.trans (le_trans (by exact_mod_cast h3) h2)

theorem readingOf_thresholds (fmt : FloatFormat) (t : Nat) (ht : t ≤ 1000000) :
    (readingOf fmt t < parkingThreshold ↔ t ≤ 882) ∧ (100 ≤ readingOf fmt t ↔ 5883 ≤ t) := by
  obtain ⟨h1, h2⟩ := readingOf_window fmt t ht
  simp only [parkingThreshold]
  constructor <;> constructor <;> intro h <;> omega

/-- The exact-arithmetic reading used by `measure` agrees with the floating-point one: they
are equal in binary64, and in either format they fall on the same side of both bounds of
the status check, for every pulse width up to the one-second timeout of `pulseIn`. -/
theorem distanceOf_agrees (fmt : FloatFormat) (t : Nat) (ht : t ≤ 1000000) :
    readingOf FloatFormat.binary64 t = distanceOf (t : Int) ∧
      (readingOf fmt t < parkingThreshold ↔ distanceOf (t : Int) < parkingThreshold) ∧
      (readingOf fmt t < 100 ↔ distanceOf (t : Int) < 100) := by
  obtain ⟨hfloor, _, hlow, hhigh⟩ := distanceOf_model t t
  obtain ⟨h15, h100⟩ := readingOf_thresholds fmt t ht
  refine ⟨by rw [readingOf_binary64_exact t ht, hfloor], by rw [h15, hlow], ?_⟩
  rw [← not_le, ← not_le, h100, hhigh]

/-- C20, as stated, fails where `double` is IEEE binary32 (AVR boards): at a pulse width
of 554647 us the rounded product `t * 0.034` is 18858.0, so the reading is 9429, while
`floor(17 * t / 1000)` is 9428. On binary64 the two agree there. -/
theorem binary32_reading_exceeds_floor :
    readingOf FloatFormat.binary32 554647 = 9429 ∧ 17 * 554647 / 1000 = 9428 ∧
      readingOf FloatFormat.binary64 554647 = 9428 := by
  decide

/-- C20, amended: for every pulse width `t` up to 1000000 us (the timeout of `pulseIn`),
the reading `t * 0.034 / 2`, rounded as the format prescribes and truncated, equals
`floor(17 * t / 1000)` in binary64, and in binary32 for `t ≤ 554646`; in either format it
is at least `floor(17 * t / 1000)` and at most `floor((17 * t + 1) / 1000)`, does not
decrease with `t`, is below the threshold 15 exactly when `t ≤ 882`, and is 100 or more
exactly when `t ≥ 5883`. -/
theorem reading_of_pulse (fmt : FloatFormat) (t u : Nat) (hu : u ≤ 1000000) (htu : t ≤ u) :
    readingOf FloatFormat.binary64 t = ((17 * t / 1000 : Nat) : Int) ∧
      (t ≤ 554646 → readingOf FloatFormat.binary32 t = ((17 * t / 1000 : Nat) : Int)) ∧
      ((17 * t / 1000 : Nat) : Int) ≤ readingOf fmt t ∧
      readingOf fmt t ≤ (((17 * t + 1) / 1000 : Nat) : Int) ∧
      readingOf fmt t ≤ readingOf fmt u ∧
      (readingOf fmt t < parkingThreshold ↔ t ≤ 882) ∧
      (100 ≤ readingOf fmt t ↔ 5883 ≤ t) := by
  have ht : t ≤ 1000000 := htu.trans hu
  exact ⟨readingOf_binary64_exact t ht, readingOf_binary32_exact t,
    (readingOf_window fmt t ht).1, (readingOf_window fmt t ht).2,
    readingOf_mono fmt t u hu htu, (readingOf_thresholds fmt t ht).1,
    (readingOf_thresholds fmt t ht).2⟩

theorem reading_of_pulse_witness :
    (5883 : Nat) ≤ 1000000 ∧ (882 : Nat) ≤ 5883 ∧
      readingOf FloatFormat.binary64 882 = ((17 * 882 / 1000 : Nat) : Int) ∧
      readingOf FloatFormat.binary32 882 = ((17 * 882 / 1000 : Nat) : Int) ∧
      readingOf FloatFormat.binary32 882 ≤ readingOf FloatFormat.binary32 5883 ∧
      readingOf FloatFormat.binary32 882 < parkingThreshold ∧
      100 ≤ readingOf FloatFormat.binary32 5883 :=
  ⟨by decide, by decide,
    (reading_of_pulse FloatFormat.binary32 882 5883 (by decide) (by decide)).1,
    (reading_of_pulse FloatFormat.binary32 882 5883 (by decide) (by decide)).2.1 (by decide),
    (reading_of_pulse FloatFormat.binary32 882 5883 (by decide) (by decide)).2.2.2.2.1,
    (reading_of_pulse FloatFormat.binary32 882 5883 (by decide) (by decide)).2.2.2.2.2.1.mpr
      (by decide),
    (reading_of_pulse FloatFormat.binary32 5883 5883 (by decide) (by decide)).2.2.2.2.2.2.mpr
      (by decide)⟩

end SmartParking
